import Mathlib

/-!
Verification of `lerobot/scripts/visualize_tri_dataset.py`.

The script loads an episode's actions and observations archives and streams
them as timestamped scalar / image records to the `rerun` visualization sink.
We shallowly embed `visualize_dataset` as a pure function producing the list
of sink / filesystem effects it performs, together with its result (a returned
path, `None`, or a raised Python exception).

Numpy arrays are embedded as rose trees (`NDArr`): iterating an array yields
its outermost elements, exactly as Python's `for x in arr` / `enumerate(arr)`
does; `a[::2, ::2]` strides the two outermost axes.  Python floats are
modelled as exact rationals.
-/

/-- A numpy array value: either a 0-d scalar or an array of sub-arrays. -/
inductive NDArr where
  | scalar : ℚ → NDArr
  | arr : List NDArr → NDArr

/-- Iterating a numpy array yields its outermost elements (`for x in a`).
Only ever applied to non-0-d arrays in the script. -/
def NDArr.elems : NDArr → List NDArr
  | .scalar _ => []
  | .arr xs => xs

/-- Python's `enumerate`, starting from index `i`. -/
def enumFrom {α : Type} (i : ℕ) : List α → List (ℕ × α)
  | [] => []
  | a :: rest => (i, a) :: enumFrom (i + 1) rest

/-- Python's `enumerate(l)`. -/
def pyEnum {α : Type} (l : List α) : List (ℕ × α) := enumFrom 0 l

/-- `leadMatch n h`: the char list `n` matches the beginning of `h`. -/
def leadMatch : List Char → List Char → Bool
  | [], _ => true
  | _ :: _, [] => false
  | n :: ns, h :: hs => n == h && leadMatch ns hs

/-- `subSearch n h`: `n` occurs as a contiguous run inside `h`. -/
def subSearch : List Char → List Char → Bool
  | ns, [] => leadMatch ns []
  | ns, h :: hs => leadMatch ns (h :: hs) || subSearch ns hs

/-- Python's `needle in hay` on strings (substring containment). -/
def strContains (hay needle : String) : Bool :=
  subSearch needle.toList hay.toList

/-- `l[::2]`: every second element of `l`, starting at index 0. -/
def everyOther {α : Type} : List α → List α
  | [] => []
  | [x] => [x]
  | x :: _ :: xs => x :: everyOther xs

/-- `a[::2]`: stride-2 slice of the outermost axis. -/
def strideFst : NDArr → NDArr
  | .scalar v => .scalar v
  | .arr xs => .arr (everyOther xs)

/-- `image[::2, ::2]`: stride-2 slice of the two outermost axes
(source line `rr.log(key, rr.Image(image[::2, ::2]))`). -/
def slice22 : NDArr → NDArr
  | .scalar v => .scalar v
  | .arr rows => .arr ((everyOther rows).map strideFst)

/-- One effect performed against the sink / filesystem / network. -/
inductive Effect where
  | rrInit : String → Bool → Effect          -- `rr.init(appId, spawn=...)`
  | rrServe : ℕ → ℕ → Effect                 -- `rr.serve(web_port, ws_port)`
  | npLoad : String → Effect                 -- `np.load(path)`
  | setTimeSequence : String → ℕ → Effect    -- `rr.set_time_sequence(axis, i)`
  | setTimeSeconds : String → ℚ → Effect     -- `rr.set_time_seconds(axis, t)`
  | logScalar : String → NDArr → Effect      -- `rr.log(path, rr.Scalar(v))`
  | logImage : String → NDArr → Effect       -- `rr.log(path, rr.Image(v))`
  | mkdirRecursive : String → Effect         -- `output_dir.mkdir(parents=True, exist_ok=True)`
  | rrSave : String → Effect                 -- `rr.save(rrd_path)`
  | blockServing : Effect                    -- distant-mode `while True: sleep(1)`

/-- A raised Python exception, as the script can produce them. -/
inductive VisError where
  | assertionError : String → VisError
  | valueError : String → VisError
  | nameError : String → VisError
deriving DecidableEq

/-- The fixed timestep `dt = 0.1` of the action loop. -/
def dt : ℚ := 1 / 10

/-- The action-streaming loop (source lines 114-121), carrying the current
frame index `i` and running timestamp `t`:
each iteration sets the frame-index axis, sets the timestamp axis, advances
`t` by `dt`, then logs one scalar per action dimension at `action/<d>`. -/
def actionLoop (i : ℕ) (t : ℚ) : List NDArr → List Effect
  | [] => []
  | action :: rest =>
      Effect.setTimeSequence "frame_index" i ::
      Effect.setTimeSeconds "timestamp" t ::
      ((pyEnum action.elems).map fun p =>
        Effect.logScalar ("action/" ++ toString p.1) p.2) ++
      actionLoop (i + 1) (t + dt) rest

/-- The robot-channel branch (source lines 126-130): for each frame, set the
frame-index axis, then log one scalar per component at `<key>/<d>`. -/
def robotChannelEffects (key : String) (value : NDArr) : List Effect :=
  (pyEnum value.elems).flatMap fun p =>
    Effect.setTimeSequence "frame_index" p.1 ::
    (pyEnum p.2.elems).map fun q =>
      Effect.logScalar (key ++ "/" ++ toString q.1) q.2

/-- The camera-channel branch (source lines 133-138): for each frame, set the
frame-index axis, then log the stride-2-downsampled image at `<key>`. -/
def imageChannelEffects (key : String) (value : NDArr) : List Effect :=
  (pyEnum value.elems).flatMap fun p =>
    [Effect.setTimeSequence "frame_index" p.1,
     Effect.logImage key (slice22 p.2)]

/-- Dispatch on the channel name (source lines 125-138):
`'robot_' in key` → scalars; `elif '_depth' in key` → skip; else → images. -/
def channelEffects (key : String) (value : NDArr) : List Effect :=
  if strContains key "robot_" then
    robotChannelEffects key value
  else if strContains key "_depth" then
    []
  else
    imageChannelEffects key value

/-- The observations loop (source line 125): channels in archive order. -/
def obsTrace (observations : List (String × NDArr)) : List Effect :=
  observations.flatMap fun kv => channelEffects kv.1 kv.2

/-- The message of the `save`-precondition assert (source lines 87-90). -/
def assertMsg : String :=
  "Set an output directory where to write .rrd files with `--output-dir path/to/directory`."

/-- `<path>/diffusion_spartan/episode_<i>/processed/<file>`. -/
def episodeFile (path : String) (episode_index : ℕ) (file : String) : String :=
  path ++ "/diffusion_spartan/episode_" ++ toString episode_index ++ "/processed/" ++ file

/-- Shallow embedding of `visualize_dataset` (source lines 78-157).  The
archives' contents are passed in as `actions` (the frames of
`actions['actions']`) and `observations` (the named channels); the function
returns the ordered effect trace together with the Python-level result:
a returned value (`.ok`) or a raised exception (`.error`).

The final `mode == "local" and save` branch reads the undefined name
`repo_id` (source line 144) after creating `output_dir`, so it raises
`NameError` there; the `rr.save` / return-path code below it is dead. -/
def visualize_dataset (path : String) (episode_index : ℕ) (mode : String)
    (web_port ws_port : ℕ) (save : Bool) (output_dir : Option String)
    (actions : List NDArr) (observations : List (String × NDArr)) :
    List Effect × Except VisError (Option String) :=
  if save && output_dir == none then
    ([], .error (.assertionError assertMsg))
  else if !(mode == "local" || mode == "distant") then
    ([], .error (.valueError mode))
  else
    let spawn_local_viewer := mode == "local" && !save
    let pre : List Effect :=
      [Effect.rrInit ("episode_" ++ toString episode_index) spawn_local_viewer] ++
      (if mode == "distant" then [Effect.rrServe web_port ws_port] else []) ++
      [Effect.npLoad (episodeFile path episode_index "actions.npz")] ++
      actionLoop 0 0 actions ++
      [Effect.npLoad (episodeFile path episode_index "observations.npz")] ++
      obsTrace observations
    if mode == "local" && save then
      -- `output_dir` is necessarily `some` here: the assert above ruled out
      -- `save = true` with `output_dir = none`.
      let d := output_dir.getD ""
      (pre ++ [Effect.mkdirRecursive d], .error (.nameError "repo_id"))
    else if mode == "distant" then
      (pre ++ [Effect.blockServing], .ok none)
    else
      (pre, .ok none)

/-- The scalar records of a trace, in emission order: `(path, payload)`. -/
def scalarLogs (es : List Effect) : List (String × NDArr) :=
  es.filterMap fun e =>
    match e with
    | .logScalar p v => some (p, v)
    | _ => none

/-- The image records of a trace, in emission order: `(path, payload)`. -/
def imageLogs (es : List Effect) : List (String × NDArr) :=
  es.filterMap fun e =>
    match e with
    | .logImage p v => some (p, v)
    | _ => none

/-- The frame-index-axis updates of a trace, in order. -/
def seqVals (es : List Effect) : List ℕ :=
  es.filterMap fun e =>
    match e with
    | .setTimeSequence _ i => some i
    | _ => none

/-- The timestamp-axis updates of a trace, in order. -/
def timeVals (es : List Effect) : List ℚ :=
  es.filterMap fun e =>
    match e with
    | .setTimeSeconds _ t => some t
    | _ => none

/-- The frame-index value in force when each record (scalar or image) of a
trace is emitted, starting from `cur`. -/
def recordFrames (cur : ℕ) : List Effect → List ℕ
  | [] => []
  | .setTimeSequence _ i :: rest => recordFrames i rest
  | .logScalar _ _ :: rest => cur :: recordFrames cur rest
  | .logImage _ _ :: rest => cur :: recordFrames cur rest
  | _ :: rest => recordFrames cur rest

/-- `a` is a vector of `D` scalars. -/
def isVecB (D : ℕ) : NDArr → Bool
  | .arr xs => xs.length == D && xs.all (fun x =>
      match x with
      | .scalar _ => true
      | .arr _ => false)
  | .scalar _ => false

/-- `a` is an `H × W × C` image (rows of cols of `C`-channel pixels). -/
def isImg (H W C : ℕ) : NDArr → Bool
  | .arr rows => rows.length == H && rows.all (fun r =>
      match r with
      | .arr cols => cols.length == W && cols.all (isVecB C)
      | .scalar _ => false)
  | .scalar _ => false

/-- Entry of a two-axis array at row `i`, column `j` (if present). -/
def entry2 (a : NDArr) (i j : ℕ) : Option NDArr :=
  match a.elems[i]? with
  | some r => r.elems[j]?
  | none => none

/-- The per-frame scalar records of one action frame. -/
def actionRecs (a : NDArr) : List Effect :=
  (pyEnum a.elems).map fun q => Effect.logScalar ("action/" ++ toString q.1) q.2

/-- The trace the spec describes for the action stream: for each frame `i`,
set the frame-index axis to `i` and the timestamp axis to `i * 0.1`, then
emit that frame's scalar records at `action/<d>`. -/
def expectedActionTrace (acts : List NDArr) : List Effect :=
  (pyEnum acts).flatMap fun p =>
    Effect.setTimeSequence "frame_index" p.1 ::
    Effect.setTimeSeconds "timestamp" ((p.1 : ℚ) * dt) ::
    actionRecs p.2

/-- The trace the spec describes for a robot channel: for each frame `i`,
set the frame-index axis to `i`, then emit one scalar record per component
at `<key>/<d>`. -/
def expectedRobotTrace (key : String) (frames : List NDArr) : List Effect :=
  (pyEnum frames).flatMap fun p =>
    Effect.setTimeSequence "frame_index" p.1 ::
    (pyEnum p.2.elems).map fun q =>
      Effect.logScalar (key ++ "/" ++ toString q.1) q.2

/-- The trace the spec describes for an image channel: for each frame `i`,
set the frame-index axis to `i`, then emit one image record at `<key>` with
every second row and every second column of the frame retained. -/
def expectedImageTrace (key : String) (frames : List NDArr) : List Effect :=
  (pyEnum frames).flatMap fun p =>
    [Effect.setTimeSequence "frame_index" p.1,
     Effect.logImage key (slice22 p.2)]

/-! ### Basic lemmas about the enumeration and extraction helpers -/

theorem enumFrom_succ {α : Type} (l : List α) :
    ∀ i : ℕ, enumFrom (i + 1) l = (enumFrom i l).map (fun p => (p.1 + 1, p.2)) := by
  induction l with
  | nil => intro i; rfl
  | cons a rest ih =>
      intro i
      simp only [enumFrom, List.map_cons, ih (i + 1)]

theorem pyEnum_cons {α : Type} (a : α) (l : List α) :
    pyEnum (a :: l) = (0, a) :: (pyEnum l).map (fun p => (p.1 + 1, p.2)) := by
  simp only [pyEnum, enumFrom, enumFrom_succ]

theorem enumFrom_length {α : Type} (l : List α) :
    ∀ i : ℕ, (enumFrom i l).length = l.length := by
  induction l with
  | nil => intro i; rfl
  | cons a rest ih => intro i; simp [enumFrom, ih]

theorem pyEnum_length {α : Type} (l : List α) : (pyEnum l).length = l.length :=
  enumFrom_length l 0

theorem enumFrom_mem_snd {α : Type} (l : List α) :
    ∀ (i : ℕ) (p : ℕ × α), p ∈ enumFrom i l → p.2 ∈ l := by
  induction l with
  | nil => intro i p h; simp [enumFrom] at h
  | cons a rest ih =>
      intro i p h
      simp only [enumFrom, List.mem_cons] at h
      rcases h with h | h
      · subst h; simp
      · exact List.mem_cons_of_mem _ (ih (i + 1) p h)

theorem flatMapCongr {α β : Type} {l : List α} {f g : α → List β}
    (h : ∀ a ∈ l, f a = g a) : l.flatMap f = l.flatMap g := by
  induction l with
  | nil => rfl
  | cons a rest ih =>
      simp only [List.flatMap_cons, h a (List.mem_cons_self a rest),
        ih (fun x hx => h x (List.mem_cons_of_mem a hx))]

theorem flatMapMap {α β γ : Type} (l : List α) (g : α → β) (f : β → List γ) :
    (l.map g).flatMap f = l.flatMap (fun x => f (g x)) := by
  induction l with
  | nil => rfl
  | cons a rest ih => simp only [List.map_cons, List.flatMap_cons, ih]

theorem scalarLogs_append (l₁ l₂ : List Effect) :
    scalarLogs (l₁ ++ l₂) = scalarLogs l₁ ++ scalarLogs l₂ :=
  List.filterMap_append l₁ l₂ _

theorem imageLogs_append (l₁ l₂ : List Effect) :
    imageLogs (l₁ ++ l₂) = imageLogs l₁ ++ imageLogs l₂ :=
  List.filterMap_append l₁ l₂ _

theorem seqVals_append (l₁ l₂ : List Effect) :
    seqVals (l₁ ++ l₂) = seqVals l₁ ++ seqVals l₂ :=
  List.filterMap_append l₁ l₂ _

theorem timeVals_append (l₁ l₂ : List Effect) :
    timeVals (l₁ ++ l₂) = timeVals l₁ ++ timeVals l₂ :=
  List.filterMap_append l₁ l₂ _

/-! ### The action loop: closed form and extractor characterizations -/

theorem actionLoop_closed (acts : List NDArr) :
    ∀ (i : ℕ) (t : ℚ),
      actionLoop i t acts = (pyEnum acts).flatMap fun p =>
        Effect.setTimeSequence "frame_index" (i + p.1) ::
        Effect.setTimeSeconds "timestamp" (t + p.1 * dt) ::
        actionRecs p.2 := by
  induction acts with
  | nil => intro i t; rfl
  | cons a rest ih =>
      intro i t
      rw [pyEnum_cons, List.flatMap_cons, flatMapMap]
      have hpt : ∀ p ∈ pyEnum rest,
          (Effect.setTimeSequence "frame_index" (i + (p.1 + 1)) ::
           Effect.setTimeSeconds "timestamp" (t + ↑(p.1 + 1) * dt) ::
           actionRecs p.2) =
          (Effect.setTimeSequence "frame_index" (i + 1 + p.1) ::
           Effect.setTimeSeconds "timestamp" (t + dt + p.1 * dt) ::
           actionRecs p.2) := by
        intro p _
        have h1 : i + (p.1 + 1) = i + 1 + p.1 := by omega
        have h2 : t + (↑(p.1 + 1) : ℚ) * dt = t + dt + ↑p.1 * dt := by
          push_cast
          ring
        rw [h1, h2]
      rw [flatMapCongr hpt]
      simp only [actionLoop, ih (i + 1) (t + dt), actionRecs]
      norm_num

/-- A block of scalar-log effects contributes no frame-index-axis updates. -/
theorem seqVals_map_logScalar (l : List (ℕ × NDArr)) (f : ℕ × NDArr → String) :
    seqVals (l.map fun q => Effect.logScalar (f q) q.2) = [] := by
  induction l with
  | nil => rfl
  | cons q rest ih => simp [seqVals, List.filterMap_cons, ih]

/-- A block of scalar-log effects contributes no timestamp-axis updates. -/
theorem timeVals_map_logScalar (l : List (ℕ × NDArr)) (f : ℕ × NDArr → String) :
    timeVals (l.map fun q => Effect.logScalar (f q) q.2) = [] := by
  induction l with
  | nil => rfl
  | cons q rest ih => simp [timeVals, List.filterMap_cons, ih]

/-- The scalar records of a block of scalar-log effects. -/
theorem scalarLogs_map_logScalar (l : List (ℕ × NDArr)) (f : ℕ × NDArr → String) :
    scalarLogs (l.map fun q => Effect.logScalar (f q) q.2) =
      l.map fun q => (f q, q.2) := by
  induction l with
  | nil => rfl
  | cons q rest ih => simp [scalarLogs, List.filterMap_cons] at *; exact ih

theorem seqVals_actionLoop (acts : List NDArr) :
    ∀ (i : ℕ) (t : ℚ), seqVals (actionLoop i t acts) = List.range' i acts.length := by
  induction acts with
  | nil => intro i t; rfl
  | cons a rest ih =>
      intro i t
      have h := seqVals_map_logScalar (pyEnum a.elems) (fun q => "action/" ++ toString q.1)
      have ih1 := ih (i + 1) (t + dt)
      simp only [actionLoop, seqVals, List.filterMap_cons, List.filterMap_append] at h ih1 ⊢
      rw [h, ih1]
      simp [List.range'_succ]

theorem timeVals_actionLoop (acts : List NDArr) :
    ∀ (i : ℕ) (t : ℚ),
      timeVals (actionLoop i t acts) =
        (List.range acts.length).map fun (k : ℕ) => t + (k : ℚ) * dt := by
  induction acts with
  | nil => intro i t; rfl
  | cons a rest ih =>
      intro i t
      have h := timeVals_map_logScalar (pyEnum a.elems) (fun q => "action/" ++ toString q.1)
      have ih1 := ih (i + 1) (t + dt)
      simp only [actionLoop, timeVals, List.filterMap_cons, List.filterMap_append] at h ih1 ⊢
      rw [h, ih1, List.length_cons, List.range_succ_eq_map, List.map_cons, List.map_map]
      simp only [List.singleton_append]
      congr 1
      · norm_num
      · refine List.map_congr_left ?_
        intro k _
        simp only [Function.comp_apply]
        push_cast
        ring

theorem scalarLogs_actionLoop_length (acts : List NDArr) (D : ℕ)
    (hD : ∀ a ∈ acts, a.elems.length = D) :
    ∀ (i : ℕ) (t : ℚ),
      (scalarLogs (actionLoop i t acts)).length = acts.length * D := by
  induction acts with
  | nil => intro i t; simp [scalarLogs, actionLoop]
  | cons a rest ih =>
      intro i t
      have h := scalarLogs_map_logScalar (pyEnum a.elems) (fun q => "action/" ++ toString q.1)
      have ih1 := ih (fun x hx => hD x (List.mem_cons_of_mem a hx)) (i + 1) (t + dt)
      simp only [actionLoop, scalarLogs, List.filterMap_cons, List.filterMap_append] at h ih1 ⊢
      rw [h]
      simp only [List.length_append, List.length_map, pyEnum_length]
      rw [ih1, hD a (List.mem_cons_self a rest)]
      simp only [List.length_cons]
      ring

theorem filterMapFlatMap {α β γ : Type} (l : List α) (F : α → List β) (g : β → Option γ) :
    (l.flatMap F).filterMap g = l.flatMap fun a => (F a).filterMap g := by
  induction l with
  | nil => rfl
  | cons a rest ih => simp only [List.flatMap_cons, List.filterMap_append, ih]

theorem flatMapSingleton {α β : Type} (l : List α) (f : α → β) :
    (l.flatMap fun a => [f a]) = l.map f := by
  induction l with
  | nil => rfl
  | cons a rest ih => simp only [List.flatMap_cons, List.map_cons, ih, List.singleton_append]

theorem enumFrom_map_fst {α : Type} (l : List α) :
    ∀ i : ℕ, (enumFrom i l).map Prod.fst = List.range' i l.length := by
  induction l with
  | nil => intro i; rfl
  | cons a rest ih => intro i; simp [enumFrom, List.range'_succ, ih (i + 1)]

theorem pyEnum_map_fst {α : Type} (l : List α) :
    (pyEnum l).map Prod.fst = List.range l.length := by
  rw [pyEnum, enumFrom_map_fst, List.range_eq_range']

theorem everyOther_length {α : Type} : ∀ l : List α,
    (everyOther l).length = (l.length + 1) / 2
  | [] => by simp [everyOther]
  | [_] => by simp [everyOther]
  | _ :: _ :: xs => by
      simp only [everyOther, List.length_cons, everyOther_length xs]
      omega

theorem everyOther_mem {α : Type} : ∀ (l : List α) (x : α), x ∈ everyOther l → x ∈ l
  | [], _, h => h
  | [_], _, h => h
  | a :: b :: xs, x, h => by
      simp only [everyOther, List.mem_cons] at h ⊢
      rcases h with h | h
      · exact Or.inl h
      · exact Or.inr (Or.inr (everyOther_mem xs x h))

theorem everyOther_get {α : Type} : ∀ (l : List α) (i : ℕ),
    (everyOther l)[i]? = l[2 * i]?
  | [], i => by simp [everyOther]
  | [x], 0 => rfl
  | [x], (i + 1) => by
      simp only [everyOther]
      rw [List.getElem?_eq_none (by simp only [List.length_singleton]; omega),
        List.getElem?_eq_none (by simp only [List.length_singleton]; omega)]
  | x :: y :: xs, 0 => by simp [everyOther]
  | x :: y :: xs, (i + 1) => by
      have ih := everyOther_get xs i
      have h2 : 2 * (i + 1) = 2 * i + 1 + 1 := by ring
      simp only [everyOther, h2, List.getElem?_cons_succ]
      exact ih

theorem isImg_slice22 (H W C : ℕ) (a : NDArr) (h : isImg H W C a = true) :
    isImg ((H + 1) / 2) ((W + 1) / 2) C (slice22 a) = true := by
  cases a with
  | scalar v => simp [isImg] at h
  | arr rows =>
      rw [show slice22 (NDArr.arr rows) = NDArr.arr ((everyOther rows).map strideFst) from rfl]
      simp only [isImg, Bool.and_eq_true, beq_iff_eq, List.all_eq_true] at h ⊢
      obtain ⟨hlen, hall⟩ := h
      refine ⟨by simp [everyOther_length, hlen], ?_⟩
      intro r' hr'
      obtain ⟨r, hrmem, rfl⟩ := List.mem_map.mp hr'
      have hrP := hall r (everyOther_mem rows r hrmem)
      cases r with
      | scalar v => simp at hrP
      | arr cols =>
          simp only [Bool.and_eq_true, beq_iff_eq, List.all_eq_true] at hrP
          obtain ⟨hclen, hcall⟩ := hrP
          rw [show strideFst (NDArr.arr cols) = NDArr.arr (everyOther cols) from rfl]
          simp only [Bool.and_eq_true, beq_iff_eq, List.all_eq_true]
          exact ⟨by simp [everyOther_length, hclen],
            fun c hc => hcall c (everyOther_mem cols c hc)⟩

theorem entry2_slice22 (a : NDArr) (i j : ℕ) :
    entry2 (slice22 a) i j = entry2 a (2 * i) (2 * j) := by
  cases a with
  | scalar v => rfl
  | arr rows =>
      rw [show slice22 (NDArr.arr rows) = NDArr.arr ((everyOther rows).map strideFst) from rfl]
      simp only [entry2, NDArr.elems, List.getElem?_map, everyOther_get]
      cases hrow : rows[2 * i]? with
      | none => simp
      | some r =>
          cases r with
          | scalar v => simp [strideFst, NDArr.elems]
          | arr cols => simp [strideFst, NDArr.elems, everyOther_get]

theorem flatMapNil {α β : Type} (l : List α) :
    (l.flatMap fun _ => ([] : List β)) = [] := by
  induction l with
  | nil => rfl
  | cons a rest ih => simp only [List.flatMap_cons, ih, List.nil_append]

theorem length_flatMap_const {α β : Type} (l : List α) (F : α → List β) (D : ℕ)
    (h : ∀ a ∈ l, (F a).length = D) : (l.flatMap F).length = l.length * D := by
  induction l with
  | nil => simp
  | cons a rest ih =>
      simp only [List.flatMap_cons, List.length_append, List.length_cons,
        h a (List.mem_cons_self a rest),
        ih (fun x hx => h x (List.mem_cons_of_mem a hx))]
      ring

theorem scalarLogs_robot (key : String) (value : NDArr) :
    scalarLogs (robotChannelEffects key value) =
      (pyEnum value.elems).flatMap fun p =>
        (pyEnum p.2.elems).map fun q => (key ++ "/" ++ toString q.1, q.2) := by
  simp only [robotChannelEffects, scalarLogs, filterMapFlatMap]
  refine flatMapCongr ?_
  intro p _
  have h := scalarLogs_map_logScalar (pyEnum p.2.elems) (fun q => key ++ "/" ++ toString q.1)
  simp only [scalarLogs] at h
  simp [List.filterMap_cons, h]

theorem seqVals_robot (key : String) (value : NDArr) :
    seqVals (robotChannelEffects key value) = List.range value.elems.length := by
  simp only [robotChannelEffects, seqVals, filterMapFlatMap]
  have h : ∀ p ∈ pyEnum value.elems,
      ((Effect.setTimeSequence "frame_index" p.1 ::
        (pyEnum p.2.elems).map fun q =>
          Effect.logScalar (key ++ "/" ++ toString q.1) q.2).filterMap fun e =>
            match e with
            | Effect.setTimeSequence _ i => some i
            | _ => none) = [p.1] := by
    intro p _
    have h2 := seqVals_map_logScalar (pyEnum p.2.elems) (fun q => key ++ "/" ++ toString q.1)
    simp only [seqVals] at h2
    simp [List.filterMap_cons, h2]
  rw [flatMapCongr h, flatMapSingleton, pyEnum_map_fst]

theorem timeVals_robot (key : String) (value : NDArr) :
    timeVals (robotChannelEffects key value) = [] := by
  simp only [robotChannelEffects, timeVals, filterMapFlatMap]
  have h : ∀ p ∈ pyEnum value.elems,
      ((Effect.setTimeSequence "frame_index" p.1 ::
        (pyEnum p.2.elems).map fun q =>
          Effect.logScalar (key ++ "/" ++ toString q.1) q.2).filterMap fun e =>
            match e with
            | Effect.setTimeSeconds _ t => some t
            | _ => none) = [] := by
    intro p _
    have h2 := timeVals_map_logScalar (pyEnum p.2.elems) (fun q => key ++ "/" ++ toString q.1)
    simp only [timeVals] at h2
    simp [List.filterMap_cons, h2]
  rw [flatMapCongr h, flatMapNil]

theorem imageLogs_image (key : String) (value : NDArr) :
    imageLogs (imageChannelEffects key value) =
      (pyEnum value.elems).map fun p => (key, slice22 p.2) := by
  simp only [imageChannelEffects, imageLogs, filterMapFlatMap]
  have h : ∀ p ∈ pyEnum value.elems,
      (([Effect.setTimeSequence "frame_index" p.1,
         Effect.logImage key (slice22 p.2)]).filterMap fun e =>
            match e with
            | Effect.logImage q v => some (q, v)
            | _ => none) = [(key, slice22 p.2)] := by
    intro p _
    simp [List.filterMap_cons]
  rw [flatMapCongr h, flatMapSingleton]

theorem seqVals_image (key : String) (value : NDArr) :
    seqVals (imageChannelEffects key value) = List.range value.elems.length := by
  simp only [imageChannelEffects, seqVals, filterMapFlatMap]
  have h : ∀ p ∈ pyEnum value.elems,
      (([Effect.setTimeSequence "frame_index" p.1,
         Effect.logImage key (slice22 p.2)]).filterMap fun e =>
            match e with
            | Effect.setTimeSequence _ i => some i
            | _ => none) = [p.1] := by
    intro p _
    simp [List.filterMap_cons]
  rw [flatMapCongr h, flatMapSingleton, pyEnum_map_fst]

theorem timeVals_image (key : String) (value : NDArr) :
    timeVals (imageChannelEffects key value) = [] := by
  simp only [imageChannelEffects, timeVals, filterMapFlatMap]
  have h : ∀ p ∈ pyEnum value.elems,
      (([Effect.setTimeSequence "frame_index" p.1,
         Effect.logImage key (slice22 p.2)]).filterMap fun e =>
            match e with
            | Effect.setTimeSeconds _ t => some t
            | _ => none) = [] := by
    intro p _
    simp [List.filterMap_cons]
  rw [flatMapCongr h, flatMapNil]

theorem timeVals_channelEffects (key : String) (value : NDArr) :
    timeVals (channelEffects key value) = [] := by
  rw [channelEffects]
  split
  · exact timeVals_robot key value
  · split
    · rfl
    · exact timeVals_image key value

theorem recordFrames_block (l : List (ℕ × NDArr)) (f : ℕ × NDArr → String) :
    ∀ (c : ℕ) (tail : List Effect),
      recordFrames c ((l.map fun q => Effect.logScalar (f q) q.2) ++ tail) =
        List.replicate l.length c ++ recordFrames c tail := by
  induction l with
  | nil => intro c tail; simp
  | cons q rest ih =>
      intro c tail
      simp only [List.map_cons, List.cons_append, recordFrames, List.length_cons,
        List.replicate_succ, List.append_eq, ih c tail, List.cons_append]

theorem recordFrames_actionLoop (acts : List NDArr) :
    ∀ (i : ℕ) (t : ℚ) (c : ℕ),
      recordFrames c (actionLoop i t acts) =
        (enumFrom i acts).flatMap fun p => List.replicate p.2.elems.length p.1 := by
  induction acts with
  | nil => intro i t c; rfl
  | cons a rest ih =>
      intro i t c
      simp only [actionLoop, recordFrames, enumFrom, List.flatMap_cons, List.append_eq,
        recordFrames_block, ih (i + 1) (t + dt) i, pyEnum_length]

theorem recordFrames_robot (key : String) (frames : List NDArr) :
    ∀ (i c : ℕ),
      recordFrames c ((enumFrom i frames).flatMap fun p =>
        Effect.setTimeSequence "frame_index" p.1 ::
        (pyEnum p.2.elems).map fun q =>
          Effect.logScalar (key ++ "/" ++ toString q.1) q.2) =
      (enumFrom i frames).flatMap fun p => List.replicate p.2.elems.length p.1 := by
  induction frames with
  | nil => intro i c; rfl
  | cons f rest ih =>
      intro i c
      have ih1 := ih (i + 1) i
      simp only [List.flatMap] at ih1 ⊢
      simp only [enumFrom, List.map_cons, List.flatten_cons, List.cons_append, recordFrames,
        List.append_eq, recordFrames_block, pyEnum_length, ih1]

theorem recordFrames_image (key : String) (frames : List NDArr) :
    ∀ (i c : ℕ),
      recordFrames c ((enumFrom i frames).flatMap fun p =>
        [Effect.setTimeSequence "frame_index" p.1,
         Effect.logImage key (slice22 p.2)]) =
      (enumFrom i frames).map Prod.fst := by
  induction frames with
  | nil => intro i c; rfl
  | cons f rest ih =>
      intro i c
      have ih1 := ih (i + 1) i
      simp only [List.flatMap] at ih1 ⊢
      simp only [enumFrom, List.map_cons, List.flatten_cons, List.cons_append, recordFrames,
        List.append_eq, List.nil_append, ih1]

theorem mem_actionLoop (acts : List NDArr) :
    ∀ (i : ℕ) (t : ℚ) (e : Effect), e ∈ actionLoop i t acts →
      (∃ j, e = Effect.setTimeSequence "frame_index" j) ∨
      (∃ s, e = Effect.setTimeSeconds "timestamp" s) ∨
      (∃ p v, e = Effect.logScalar p v) := by
  induction acts with
  | nil => intro i t e h; simp [actionLoop] at h
  | cons a rest ih =>
      intro i t e h
      simp only [actionLoop, List.mem_cons, List.mem_append, List.mem_map] at h
      rcases h with (h | h | ⟨q, hq, h⟩) | h
      · exact Or.inl ⟨i, h⟩
      · exact Or.inr (Or.inl ⟨t, h⟩)
      · exact Or.inr (Or.inr ⟨_, _, h.symm⟩)
      · exact ih (i + 1) (t + dt) e h

theorem mem_channelEffects (key : String) (value : NDArr) (e : Effect)
    (h : e ∈ channelEffects key value) :
    (∃ j, e = Effect.setTimeSequence "frame_index" j) ∨
    (∃ p v, e = Effect.logScalar p v) ∨
    (∃ p v, e = Effect.logImage p v) := by
  rw [channelEffects] at h
  split at h
  · simp only [robotChannelEffects, List.mem_flatMap, List.mem_cons, List.mem_map] at h
    obtain ⟨p, _, h⟩ := h
    rcases h with h | ⟨q, _, h⟩
    · exact Or.inl ⟨p.1, h⟩
    · exact Or.inr (Or.inl ⟨_, _, h.symm⟩)
  · split at h
    · simp at h
    · simp only [imageChannelEffects, List.mem_flatMap, List.mem_cons,
        List.mem_singleton, List.not_mem_nil, or_false] at h
      obtain ⟨p, _, h⟩ := h
      rcases h with h | h
      · exact Or.inl ⟨p.1, h⟩
      · exact Or.inr (Or.inr ⟨_, _, h⟩)

theorem mem_obsTrace (observations : List (String × NDArr)) (e : Effect)
    (h : e ∈ obsTrace observations) :
    (∃ j, e = Effect.setTimeSequence "frame_index" j) ∨
    (∃ p v, e = Effect.logScalar p v) ∨
    (∃ p v, e = Effect.logImage p v) := by
  rw [obsTrace] at h
  simp only [List.mem_flatMap] at h
  obtain ⟨kv, _, h⟩ := h
  exact mem_channelEffects kv.1 kv.2 e h

theorem mem_visualize_trace (path : String) (episode_index : ℕ) (mode : String)
    (web_port ws_port : ℕ) (save : Bool) (output_dir : Option String)
    (actions : List NDArr) (observations : List (String × NDArr)) (e : Effect)
    (h : e ∈ (visualize_dataset path episode_index mode web_port ws_port save
      output_dir actions observations).1) :
    e = Effect.rrInit ("episode_" ++ toString episode_index) (mode == "local" && !save) ∨
    e = Effect.rrServe web_port ws_port ∨
    (∃ f, e = Effect.npLoad f) ∨
    (∃ j, e = Effect.setTimeSequence "frame_index" j) ∨
    (∃ s, e = Effect.setTimeSeconds "timestamp" s) ∨
    (∃ p v, e = Effect.logScalar p v) ∨
    (∃ p v, e = Effect.logImage p v) ∨
    (∃ d, e = Effect.mkdirRecursive d) ∨
    e = Effect.blockServing := by
  rw [visualize_dataset] at h
  split at h
  · simp at h
  · split at h
    · simp at h
    · split at h <;> split at h <;>
        simp only [List.cons_append, List.nil_append, List.mem_append, List.mem_cons,
          List.not_mem_nil, or_false, false_or, List.mem_singleton] at h <;>
        casesm* _ ∨ _ <;> (try rename_i h) <;>
        (try replace h := mem_actionLoop actions 0 0 e h) <;>
        (try replace h := mem_obsTrace observations e h) <;>
        (try casesm* _ ∨ _) <;> (try rename_i h) <;>
        first
        | exact Or.inl h
        | exact Or.inr (Or.inl h)
        | exact Or.inr (Or.inr (Or.inl ⟨_, h⟩))
        | exact Or.inr (Or.inr (Or.inr (Or.inr (Or.inr (Or.inr (Or.inr (Or.inl ⟨_, h⟩)))))))
        | exact Or.inr (Or.inr (Or.inr (Or.inr (Or.inr (Or.inr (Or.inr (Or.inr h)))))))
        | (obtain ⟨j, hj⟩ := h
           exact Or.inr (Or.inr (Or.inr (Or.inl ⟨j, hj⟩))))
        | (obtain ⟨s', hs'⟩ := h
           exact Or.inr (Or.inr (Or.inr (Or.inr (Or.inl ⟨s', hs'⟩)))))
        | (obtain ⟨p, v, hpv⟩ := h
           exact Or.inr (Or.inr (Or.inr (Or.inr (Or.inr (Or.inl ⟨p, v, hpv⟩))))))
        | (obtain ⟨p, v, hpv⟩ := h
           exact Or.inr (Or.inr (Or.inr (Or.inr (Or.inr (Or.inr (Or.inl ⟨p, v, hpv⟩)))))))

/-! ### Claim theorems -/

/-- C3: for an actions archive of `T` frames by `D` dimensions, the action
loop emits exactly `T * D` scalar records at paths `action/<d>`; the trace
equals the expected one (for each frame `i`: set the frame-index axis to
`i`, set the timestamp axis to the running total `i * 0.1`, then emit that
frame's records); in emission order the frame-index axis takes values
`0, …, T-1` and the timestamp axis `0, 0.1, …, (T-1) * 0.1`. -/
theorem C3_action_stream (acts : List NDArr) (T D : ℕ)
    (hT : acts.length = T) (hD : ∀ a ∈ acts, a.elems.length = D) :
    actionLoop 0 0 acts = expectedActionTrace acts ∧
    (scalarLogs (actionLoop 0 0 acts)).length = T * D ∧
    seqVals (actionLoop 0 0 acts) = List.range T ∧
    timeVals (actionLoop 0 0 acts) = (List.range T).map fun (k : ℕ) => (k : ℚ) * dt := by
  subst hT
  refine ⟨?_, scalarLogs_actionLoop_length acts D hD 0 0, ?_, ?_⟩
  · rw [actionLoop_closed, expectedActionTrace]
    refine flatMapCongr ?_
    intro p _
    norm_num
  · rw [seqVals_actionLoop, List.range_eq_range']
  · rw [timeVals_actionLoop]
    refine List.map_congr_left ?_
    intro k _
    norm_num

/-- Witness for C3 at a concrete 3-frame, 2-dimensional actions archive. -/
theorem C3_action_stream_witness :
    ([NDArr.arr [NDArr.scalar 1, NDArr.scalar 2], NDArr.arr [NDArr.scalar 3, NDArr.scalar 4],
      NDArr.arr [NDArr.scalar 5, NDArr.scalar 6]] : List NDArr).length = 3 ∧
    (∀ a ∈ ([NDArr.arr [NDArr.scalar 1, NDArr.scalar 2], NDArr.arr [NDArr.scalar 3, NDArr.scalar 4],
      NDArr.arr [NDArr.scalar 5, NDArr.scalar 6]] : List NDArr), a.elems.length = 2) ∧
    (scalarLogs (actionLoop 0 0 [NDArr.arr [NDArr.scalar 1, NDArr.scalar 2],
      NDArr.arr [NDArr.scalar 3, NDArr.scalar 4],
      NDArr.arr [NDArr.scalar 5, NDArr.scalar 6]])).length = 3 * 2 :=
  ⟨rfl, by decide,
    (C3_action_stream [NDArr.arr [NDArr.scalar 1, NDArr.scalar 2],
      NDArr.arr [NDArr.scalar 3, NDArr.scalar 4],
      NDArr.arr [NDArr.scalar 5, NDArr.scalar 6]] 3 2 rfl (by decide)).2.1⟩

/-- C4: a channel whose name contains `robot_` with a `T × D` array emits
exactly `T * D` scalar records, one per (frame, dimension) pair, at paths
`<key>/<d>`, the frame-index axis being set to `i` before frame `i`'s
records. -/
theorem C4_robot_channel (key : String) (frames : List NDArr) (T D : ℕ)
    (hkey : strContains key "robot_" = true)
    (hT : frames.length = T) (hD : ∀ f ∈ frames, f.elems.length = D) :
    channelEffects key (NDArr.arr frames) = expectedRobotTrace key frames ∧
    (scalarLogs (channelEffects key (NDArr.arr frames))).length = T * D ∧
    seqVals (channelEffects key (NDArr.arr frames)) = List.range T := by
  subst hT
  have hch : channelEffects key (NDArr.arr frames) =
      robotChannelEffects key (NDArr.arr frames) := by
    rw [channelEffects, if_pos hkey]
  refine ⟨by rw [hch]; rfl, ?_, ?_⟩
  · rw [hch, scalarLogs_robot]
    have hlen : ((pyEnum (NDArr.arr frames).elems).flatMap fun p =>
        (pyEnum p.2.elems).map fun q => (key ++ "/" ++ toString q.1, q.2)).length =
        (pyEnum (NDArr.arr frames).elems).length * D := by
      refine length_flatMap_const _ _ D ?_
      intro p hp
      have hmem : p.2 ∈ frames := enumFrom_mem_snd frames 0 p hp
      simp [pyEnum_length, hD p.2 hmem]
    rw [hlen]
    simp [pyEnum_length, NDArr.elems]
  · rw [hch, seqVals_robot]
    simp [NDArr.elems]

/-- Witness for C4 at a concrete 2-frame, 3-dimensional robot channel. -/
theorem C4_robot_channel_witness :
    strContains "robot_state" "robot_" = true ∧
    ([NDArr.arr [NDArr.scalar 1, NDArr.scalar 2, NDArr.scalar 3],
      NDArr.arr [NDArr.scalar 4, NDArr.scalar 5, NDArr.scalar 6]] : List NDArr).length = 2 ∧
    (scalarLogs (channelEffects "robot_state"
      (NDArr.arr [NDArr.arr [NDArr.scalar 1, NDArr.scalar 2, NDArr.scalar 3],
        NDArr.arr [NDArr.scalar 4, NDArr.scalar 5, NDArr.scalar 6]]))).length = 2 * 3 :=
  ⟨by decide, rfl,
    (C4_robot_channel "robot_state"
      [NDArr.arr [NDArr.scalar 1, NDArr.scalar 2, NDArr.scalar 3],
       NDArr.arr [NDArr.scalar 4, NDArr.scalar 5, NDArr.scalar 6]] 2 3
      (by decide) rfl (by decide)).2.1⟩

/-- C5: a channel whose name contains neither `robot_` nor `_depth`, with
`T` frames of shape `H × W × C`, emits exactly `T` image records at path
`<key>`, each the stride-2 slice `frame[::2, ::2]` of its frame: shape
`⌈H/2⌉ × ⌈W/2⌉ × C` (here `(H+1)/2 × (W+1)/2 × C` in natural division),
retaining entry `(2i, 2j)` of the original at position `(i, j)`. -/
theorem C5_image_channel (key : String) (frames : List NDArr) (T H W C : ℕ)
    (h1 : strContains key "robot_" = false) (h2 : strContains key "_depth" = false)
    (hT : frames.length = T)
    (hShape : ∀ f ∈ frames, isImg H W C f = true) :
    channelEffects key (NDArr.arr frames) = expectedImageTrace key frames ∧
    (imageLogs (channelEffects key (NDArr.arr frames))).length = T ∧
    (∀ e ∈ imageLogs (channelEffects key (NDArr.arr frames)),
      e.1 = key ∧ isImg ((H + 1) / 2) ((W + 1) / 2) C e.2 = true) ∧
    (∀ (f : NDArr) (i j : ℕ), entry2 (slice22 f) i j = entry2 f (2 * i) (2 * j)) := by
  subst hT
  have hch : channelEffects key (NDArr.arr frames) =
      imageChannelEffects key (NDArr.arr frames) := by
    rw [channelEffects, if_neg (by simp [h1]), if_neg (by simp [h2])]
  refine ⟨by rw [hch]; rfl, ?_, ?_, fun f i j => entry2_slice22 f i j⟩
  · rw [hch, imageLogs_image]
    simp [pyEnum_length, NDArr.elems]
  · rw [hch, imageLogs_image]
    intro e he
    obtain ⟨p, hp, rfl⟩ := List.mem_map.mp he
    refine ⟨rfl, ?_⟩
    have hmem : p.2 ∈ frames := enumFrom_mem_snd frames 0 p hp
    exact isImg_slice22 H W C p.2 (hShape p.2 hmem)

/-- Witness for C5 at a concrete camera channel with one `3 × 3 × 1` frame:
the emitted image has shape `2 × 2 × 1`. -/
theorem C5_image_channel_witness :
    strContains "camera_front" "robot_" = false ∧
    strContains "camera_front" "_depth" = false ∧
    (∀ e ∈ imageLogs (channelEffects "camera_front"
        (NDArr.arr [NDArr.arr
          [NDArr.arr [NDArr.arr [NDArr.scalar 1], NDArr.arr [NDArr.scalar 2], NDArr.arr [NDArr.scalar 3]],
           NDArr.arr [NDArr.arr [NDArr.scalar 4], NDArr.arr [NDArr.scalar 5], NDArr.arr [NDArr.scalar 6]],
           NDArr.arr [NDArr.arr [NDArr.scalar 7], NDArr.arr [NDArr.scalar 8], NDArr.arr [NDArr.scalar 9]]]])),
      e.1 = "camera_front" ∧ isImg ((3 + 1) / 2) ((3 + 1) / 2) 1 e.2 = true) :=
  ⟨by decide, by decide,
    (C5_image_channel "camera_front"
      [NDArr.arr
        [NDArr.arr [NDArr.arr [NDArr.scalar 1], NDArr.arr [NDArr.scalar 2], NDArr.arr [NDArr.scalar 3]],
         NDArr.arr [NDArr.arr [NDArr.scalar 4], NDArr.arr [NDArr.scalar 5], NDArr.arr [NDArr.scalar 6]],
         NDArr.arr [NDArr.arr [NDArr.scalar 7], NDArr.arr [NDArr.scalar 8], NDArr.arr [NDArr.scalar 9]]]]
      1 3 3 1 (by decide) (by decide) rfl (by decide)).2.2.1⟩

/-- C2 counterexample: the claim says a channel whose name contains
`_depth` emits zero records regardless of contents, but the dispatch tests
`robot_` first, so the channel `robot_eef_depth` (one frame, one
component) emits records. -/
theorem C2_counterexample :
    strContains "robot_eef_depth" "_depth" = true ∧
    channelEffects "robot_eef_depth" (NDArr.arr [NDArr.arr [NDArr.scalar 1]]) ≠ [] := by
  refine ⟨by decide, fun h => ?_⟩
  have hl : (channelEffects "robot_eef_depth"
      (NDArr.arr [NDArr.arr [NDArr.scalar 1]])).length = 2 := by decide
  rw [h] at hl
  exact absurd hl (by decide)

/-- C2 amended: a channel whose name contains `_depth` but not `robot_`
emits zero records and performs no time-axis updates. -/
theorem C2_depth_skip_amended (key : String) (value : NDArr)
    (h1 : strContains key "_depth" = true) (h2 : strContains key "robot_" = false) :
    channelEffects key value = [] := by
  rw [channelEffects, if_neg (by simp [h2]), if_pos h1]

/-- Witness for the amended C2 at the channel `camera_front_depth`. -/
theorem C2_depth_skip_witness :
    strContains "camera_front_depth" "_depth" = true ∧
    strContains "camera_front_depth" "robot_" = false ∧
    channelEffects "camera_front_depth" (NDArr.arr [NDArr.arr [NDArr.scalar 7]]) = [] :=
  ⟨by decide, by decide,
    C2_depth_skip_amended "camera_front_depth" (NDArr.arr [NDArr.arr [NDArr.scalar 7]])
      (by decide) (by decide)⟩

/-- C10: a channel whose name contains both `robot_` and `_depth` is
dispatched as a robot channel (the `robot_` test comes first), so its
values are emitted as scalar records. -/
theorem C10_robot_wins_over_depth (key : String) (value : NDArr)
    (h1 : strContains key "robot_" = true) (_h2 : strContains key "_depth" = true) :
    channelEffects key value = robotChannelEffects key value ∧
    scalarLogs (channelEffects key value) =
      (pyEnum value.elems).flatMap fun p =>
        (pyEnum p.2.elems).map fun q => (key ++ "/" ++ toString q.1, q.2) := by
  have hch : channelEffects key value = robotChannelEffects key value := by
    rw [channelEffects, if_pos h1]
  exact ⟨hch, by rw [hch, scalarLogs_robot]⟩

/-- Witness for C10 at the channel `robot_eef_depth`: one scalar record
(not zero) is emitted for a one-frame, one-component array. -/
theorem C10_robot_wins_over_depth_witness :
    strContains "robot_eef_depth" "robot_" = true ∧
    strContains "robot_eef_depth" "_depth" = true ∧
    channelEffects "robot_eef_depth" (NDArr.arr [NDArr.arr [NDArr.scalar 1]]) =
      robotChannelEffects "robot_eef_depth" (NDArr.arr [NDArr.arr [NDArr.scalar 1]]) :=
  ⟨by decide, by decide,
    (C10_robot_wins_over_depth "robot_eef_depth" (NDArr.arr [NDArr.arr [NDArr.scalar 1]])
      (by decide) (by decide)).1⟩

/-- C6 counterexample: the claim says the frame-index axis increases by 1
per emitted record, but a single action frame with two dimensions emits
two records under the same frame index 0, so the per-record frame indices
are `[0, 0]`, not `0, 1`. -/
theorem C6_counterexample :
    recordFrames 0 (actionLoop 0 0 [NDArr.arr [NDArr.scalar 0, NDArr.scalar 1]]) = [0, 0] ∧
    ([0, 0] : List ℕ) ≠ List.range 2 := by
  exact ⟨by decide, by decide⟩

/-- C6 amended: within every channel's loop the frame-index axis starts at
0 and increases by 1 per frame (not per record): all records emitted while
processing frame `i` carry frame index `i`; the timestamp axis is only
advanced in the action loop — observation channels update no timestamps. -/
theorem C6_timeline_amended (acts : List NDArr) (key : String) (value : NDArr) :
    seqVals (actionLoop 0 0 acts) = List.range acts.length ∧
    recordFrames 0 (actionLoop 0 0 acts) =
      ((pyEnum acts).flatMap fun p => List.replicate p.2.elems.length p.1) ∧
    timeVals (channelEffects key value) = [] ∧
    (strContains key "robot_" = true →
      recordFrames 0 (channelEffects key value) =
        (pyEnum value.elems).flatMap fun p => List.replicate p.2.elems.length p.1) ∧
    (strContains key "robot_" = false → strContains key "_depth" = false →
      recordFrames 0 (channelEffects key value) = List.range value.elems.length ∧
      seqVals (channelEffects key value) = List.range value.elems.length) := by
  refine ⟨?_, ?_, timeVals_channelEffects key value, ?_, ?_⟩
  · rw [seqVals_actionLoop, List.range_eq_range']
  · exact recordFrames_actionLoop acts 0 0 0
  · intro h
    rw [channelEffects, if_pos h]
    exact recordFrames_robot key value.elems 0 0
  · intro h1 h2
    rw [channelEffects, if_neg (by simp [h1]), if_neg (by simp [h2])]
    constructor
    · rw [show recordFrames 0 (imageChannelEffects key value) =
          (enumFrom 0 value.elems).map Prod.fst from recordFrames_image key value.elems 0 0,
        enumFrom_map_fst, List.range_eq_range']
    · rw [seqVals_image]

/-- Witness for the amended C6: a one-frame robot channel's single record
carries frame index 0. -/
theorem C6_timeline_witness :
    strContains "robot_state" "robot_" = true ∧
    recordFrames 0 (channelEffects "robot_state" (NDArr.arr [NDArr.arr [NDArr.scalar 2]])) =
      (pyEnum (NDArr.arr [NDArr.arr [NDArr.scalar 2]]).elems).flatMap
        (fun p => List.replicate p.2.elems.length p.1) :=
  ⟨by decide,
    (C6_timeline_amended [] "robot_state" (NDArr.arr [NDArr.arr [NDArr.scalar 2]])).2.2.2.1
      (by decide)⟩

/-- C7 counterexample: with an invalid mode but `save = true` and no
output directory, the precondition assert fires before the mode check, so
the failure is the assertion error, not the invalid-argument error the
claim promises. -/
theorem C7_counterexample :
    (visualize_dataset "p" 0 "stream" 9090 9087 true none [] []).2 ≠
      Except.error (VisError.valueError "stream") ∧
    (visualize_dataset "p" 0 "stream" 9090 9087 true none [] []).2 =
      Except.error (VisError.assertionError assertMsg) := by
  refine ⟨fun h => ?_, rfl⟩
  rw [show (visualize_dataset "p" 0 "stream" 9090 9087 true none [] []).2 =
      Except.error (VisError.assertionError assertMsg) from rfl] at h
  injection h with h2
  exact absurd h2 (by decide)

/-- C7 amended: for every mode outside `{local, distant}`, `visualize`
performs no effect at all (no filesystem or network access); the failure is
the invalid-argument `ValueError` except when `save = true` with no output
directory, in which case the precondition `AssertionError` fires first. -/
theorem C7_invalid_mode_amended (path : String) (episode_index : ℕ) (mode : String)
    (web_port ws_port : ℕ) (save : Bool) (output_dir : Option String)
    (actions : List NDArr) (observations : List (String × NDArr))
    (h1 : mode ≠ "local") (h2 : mode ≠ "distant") :
    (visualize_dataset path episode_index mode web_port ws_port save output_dir
      actions observations).1 = [] ∧
    (¬(save = true ∧ output_dir = none) →
      (visualize_dataset path episode_index mode web_port ws_port save output_dir
        actions observations).2 = Except.error (VisError.valueError mode)) ∧
    ((save = true ∧ output_dir = none) →
      (visualize_dataset path episode_index mode web_port ws_port save output_dir
        actions observations).2 = Except.error (VisError.assertionError assertMsg)) := by
  rw [visualize_dataset]
  by_cases hs : (save && output_dir == none) = true
  · rw [if_pos hs]
    refine ⟨rfl, ?_, fun _ => rfl⟩
    intro hcon
    exfalso
    apply hcon
    simpa using hs
  · rw [if_neg hs, if_pos (by simp [h1, h2])]
    refine ⟨rfl, fun _ => rfl, ?_⟩
    intro hcon
    exfalso
    apply hs
    simp [hcon.1, hcon.2]

/-- Witness for the amended C7 at mode `stream` with `save = false`. -/
theorem C7_invalid_mode_witness :
    ("stream" : String) ≠ "local" ∧ ("stream" : String) ≠ "distant" ∧
    (visualize_dataset "p" 0 "stream" 9090 9087 false none [] []).1 = [] ∧
    (visualize_dataset "p" 0 "stream" 9090 9087 false none [] []).2 =
      Except.error (VisError.valueError "stream") :=
  ⟨by decide, by decide,
    (C7_invalid_mode_amended "p" 0 "stream" 9090 9087 false none [] []
      (by decide) (by decide)).1,
    (C7_invalid_mode_amended "p" 0 "stream" 9090 9087 false none [] []
      (by decide) (by decide)).2.1 (by simp)⟩

/-- C8: calling with `save = true` and no output directory fails with the
precondition `AssertionError` — whose message names the missing output
directory — before the sink is initialized and with no effect performed. -/
theorem C8_missing_output_dir (path : String) (episode_index : ℕ) (mode : String)
    (web_port ws_port : ℕ) (actions : List NDArr)
    (observations : List (String × NDArr)) :
    visualize_dataset path episode_index mode web_port ws_port true none
      actions observations = ([], Except.error (VisError.assertionError assertMsg)) ∧
    strContains assertMsg "output directory" = true :=
  ⟨rfl, by decide⟩

/-- C9: with `mode = local` and `save = false` the sink is initialized
with the viewer-spawning flag set (the first effect is `rr.init` with
`spawn = true`), the call returns `None` right after streaming (no
saving, no serving, no blocking), and in every other mode/save
combination the `rr.init` spawn flag is false. -/
theorem C9_local_interactive_viewer (path : String) (episode_index : ℕ)
    (web_port ws_port : ℕ) (output_dir : Option String)
    (actions : List NDArr) (observations : List (String × NDArr)) :
    (visualize_dataset path episode_index "local" web_port ws_port false output_dir
        actions observations).1 =
      Effect.rrInit ("episode_" ++ toString episode_index) true ::
        (Effect.npLoad (episodeFile path episode_index "actions.npz") ::
          actionLoop 0 0 actions ++
          Effect.npLoad (episodeFile path episode_index "observations.npz") ::
          obsTrace observations) ∧
    (visualize_dataset path episode_index "local" web_port ws_port false output_dir
        actions observations).2 = Except.ok none ∧
    (∀ (mode : String) (save : Bool) (od : Option String) (s : String) (b : Bool),
      Effect.rrInit s b ∈ (visualize_dataset path episode_index mode web_port ws_port
        save od actions observations).1 →
      b = (mode == "local" && !save)) := by
  refine ⟨?_, rfl, ?_⟩
  · simp [visualize_dataset]
  · intro mode save od s b h
    rcases mem_visualize_trace path episode_index mode web_port ws_port save od
        actions observations _ h with
      hh | hh | ⟨f, hh⟩ | ⟨j, hh⟩ | ⟨s', hh⟩ | ⟨p, v, hh⟩ | ⟨p, v, hh⟩ | ⟨d, hh⟩ | hh
    · exact (Effect.rrInit.injEq _ _ _ _).mp hh |>.2
    all_goals simp at hh

/-- Witness for C9: at `mode = local`, `save = false`, the first effect is
`rr.init` with the spawn flag true, and the spawn flag of that effect
equals `mode == "local" && !save`. -/
theorem C9_local_interactive_viewer_witness :
    Effect.rrInit "episode_0" true ∈
      (visualize_dataset "p" 0 "local" 9090 9087 false none [] []).1 ∧
    true = (("local" == "local") && !false) :=
  ⟨by simp [visualize_dataset]; exact Or.inl rfl,
    (C9_local_interactive_viewer "p" 0 9090 9087 none [] []).2.2 "local" false none
      "episode_0" true (by simp [visualize_dataset]; exact Or.inl rfl)⟩

/-- C1 (code defect): with `mode = local` and `save = true` the final
branch creates the output directory but then reads the undefined name
`repo_id` (source line 144), raising `NameError`: no `.rrd` file is ever
written (`rr.save` is unreachable) and no path is returned, contrary to
the claim. -/
theorem C1_save_branch_raises_nameError (path : String) (episode_index : ℕ)
    (web_port ws_port : ℕ) (d : String)
    (actions : List NDArr) (observations : List (String × NDArr)) :
    (visualize_dataset path episode_index "local" web_port ws_port true (some d)
        actions observations).2 = Except.error (VisError.nameError "repo_id") ∧
    Effect.mkdirRecursive d ∈ (visualize_dataset path episode_index "local" web_port
        ws_port true (some d) actions observations).1 ∧
    ∀ p, Effect.rrSave p ∉ (visualize_dataset path episode_index "local" web_port
        ws_port true (some d) actions observations).1 := by
  refine ⟨rfl, ?_, ?_⟩
  · simp [visualize_dataset]
  · intro p hp
    rcases mem_visualize_trace path episode_index "local" web_port ws_port true
        (some d) actions observations _ hp with
      hh | hh | ⟨f, hh⟩ | ⟨j, hh⟩ | ⟨s', hh⟩ | ⟨q, v, hh⟩ | ⟨q, v, hh⟩ | ⟨dd, hh⟩ | hh
    all_goals simp at hh

/-- Witness for C1 at a concrete call. -/
theorem C1_save_branch_witness :
    (visualize_dataset "p" 3 "local" 9090 9087 true (some "/tmp/out") [] []).2 =
      Except.error (VisError.nameError "repo_id") ∧
    Effect.mkdirRecursive "/tmp/out" ∈
      (visualize_dataset "p" 3 "local" 9090 9087 true (some "/tmp/out") [] []).1 ∧
    Effect.rrSave "x.rrd" ∉
      (visualize_dataset "p" 3 "local" 9090 9087 true (some "/tmp/out") [] []).1 :=
  ⟨(C1_save_branch_raises_nameError "p" 3 9090 9087 "/tmp/out" [] []).1,
    (C1_save_branch_raises_nameError "p" 3 9090 9087 "/tmp/out" [] []).2.1,
    (C1_save_branch_raises_nameError "p" 3 9090 9087 "/tmp/out" [] []).2.2 "x.rrd"⟩
